import Mathlib

/-!
Shallow embedding of `src/atm.c`, a single-account ATM simulator.

Modelling conventions:
* C `double` amounts are modelled as `ℚ` (the spec describes them as
  decimal currency amounts, floating or fixed-point).
* The fixed array `Transaction txs[MAX_TX]` is modelled as a `List`
  of length `MAX_TX`; slots the C code has not written hold the
  placeholder `garbageTx` (the C array is uninitialized stack memory).
* C `int tx_count` is modelled as `Int` (it is read unclamped from the
  data file, so it can exceed `MAX_TX` or be negative).
* The interactive `scanf` inputs of `deposit`, `withdraw` and
  `change_pin` become explicit arguments: the CLI layer supplies the
  parsed amount / PIN tokens, exactly the boundary the spec draws.
* The data file is modelled at token level: a header that either parses
  as `(balance, pin, count)` or not, followed by one entry per
  `fscanf("%s %lf")` call that either yields `(type, amount)` or fails.
* Each mutating operation returns, besides its result and the new state,
  a `Bool` recording whether `save_data` was invoked on its path.
-/

/-- `#define MAX_TX 10` -/
def MAX_TX : Int := 10

/-- `typedef struct { char type[10]; double amount; } Transaction;` -/
structure Transaction where
  type : String
  amount : ℚ
deriving DecidableEq, Repr

/-- Placeholder for an uninitialized `Transaction` slot of the C array. -/
def garbageTx : Transaction := { type := "", amount := 0 }

/-- `typedef struct { double balance; char pin[PIN_LENGTH];
    Transaction txs[MAX_TX]; int tx_count; } ATMData;`
    `txs` is the fixed 10-slot array (length `MAX_TX` throughout). -/
structure ATMData where
  balance : ℚ
  pin : String
  txs : List Transaction
  tx_count : Int
deriving DecidableEq, Repr

/-- `init_default`: balance 1000.0, pin "1234", no transactions
    (the C code leaves the `txs` array uninitialized). -/
def init_default : ATMData :=
  { balance := 1000
    pin := "1234"
    txs := List.replicate MAX_TX.toNat garbageTx
    tx_count := 0 }

/-- `add_transaction`: if `tx_count < MAX_TX`, write the new record at
    index `tx_count` and increment `tx_count`; otherwise shift all
    slots left by one and place the new record in the last slot
    (`tx_count` unchanged). -/
def add_transaction (atm : ATMData) (type : String) (amount : ℚ) : ATMData :=
  if atm.tx_count < MAX_TX then
    { atm with
      txs := atm.txs.set atm.tx_count.toNat { type := type, amount := amount }
      tx_count := atm.tx_count + 1 }
  else
    { atm with
      txs := atm.txs.drop 1 ++ [{ type := type, amount := amount }] }

/-- Outcome of `deposit` / `withdraw` (the C code reports these by
    printing; the spec names them `InvalidAmount`, `InsufficientFunds`). -/
inductive OpResult where
  | InvalidAmount
  | InsufficientFunds
  | Ok
deriving DecidableEq, Repr

/-- `deposit`: rejects `amount <= 0`; otherwise adds to the balance,
    appends a "Deposit" record and saves. The returned `Bool` records
    whether `save_data` was called. -/
def deposit (atm : ATMData) (amount : ℚ) : OpResult × ATMData × Bool :=
  if amount ≤ 0 then
    (OpResult.InvalidAmount, atm, false)
  else
    let atm1 := { atm with balance := atm.balance + amount }
    let atm2 := add_transaction atm1 "Deposit" amount
    (OpResult.Ok, atm2, true)

/-- `withdraw`: rejects `amount <= 0` with `InvalidAmount`, then
    `amount > balance` with `InsufficientFunds` (no save on either
    path); otherwise subtracts, appends a "Withdraw" record and saves. -/
def withdraw (atm : ATMData) (amount : ℚ) : OpResult × ATMData × Bool :=
  if amount ≤ 0 then
    (OpResult.InvalidAmount, atm, false)
  else if amount > atm.balance then
    (OpResult.InsufficientFunds, atm, false)
  else
    let atm1 := { atm with balance := atm.balance - amount }
    let atm2 := add_transaction atm1 "Withdraw" amount
    (OpResult.Ok, atm2, true)

/-- Outcome of `change_pin`. -/
inductive PinResult where
  | PinMismatch
  | PinConfirmationMismatch
  | Ok
deriving DecidableEq, Repr

/-- `change_pin`: the CLI supplies the three tokens read by `scanf`.
    Wrong current PIN aborts first; then a new/confirm mismatch aborts;
    otherwise the stored pin is replaced and the state saved. -/
def change_pin (atm : ATMData) (oldpin newpin confirm : String) :
    PinResult × ATMData × Bool :=
  if oldpin ≠ atm.pin then
    (PinResult.PinMismatch, atm, false)
  else if newpin ≠ confirm then
    (PinResult.PinConfirmationMismatch, atm, false)
  else
    (PinResult.Ok, { atm with pin := newpin }, true)

/-- The single-attempt PIN check at the heart of `verify_pin`:
    `strcmp(input, atm->pin) == 0` (the 3-attempt retry loop around it
    is the CLI concern the spec excludes). -/
def verify_pin (atm : ATMData) (candidate : String) : Bool :=
  candidate == atm.pin

/-- Rounding to 2 decimal places, the effect of the `%.2f` format used
    by `save_data` for every number it writes. -/
def round2 (q : ℚ) : ℚ := (round (q * 100) : ℤ) / 100

/-- `round2` applied to a record's amount (its type token is written
    verbatim by `%s`). -/
def round2Tx (t : Transaction) : Transaction :=
  { type := t.type, amount := round2 t.amount }

/-- The data file, at the token level at which `fscanf` consumes it:
    a header that parses as `(balance, pin, count)` or fails, then one
    entry per `fscanf("%s %lf")` call, each either a parsed record or a
    parse failure. -/
structure FileData where
  header : Option (ℚ × String × Int)
  txLines : List (Option Transaction)
deriving DecidableEq, Repr

/-- `save_data` (successful-open path): writes the header
    `%.2f %s %d` and then one `%s %.2f` line per stored record,
    iterating `i < tx_count && i < MAX_TX` over the array. -/
def save_data (atm : ATMData) : FileData :=
  { header := some (round2 atm.balance, atm.pin, atm.tx_count)
    txLines :=
      (atm.txs.take (min atm.tx_count MAX_TX).toNat).map
        (fun t => some (round2Tx t)) }

/-- The transaction-reading loop of `load_data`: reads at most `n`
    entries, stopping early at end of file or at the first entry that
    fails to parse. -/
def readTxs : Nat → List (Option Transaction) → List Transaction
  | 0, _ => []
  | _ + 1, [] => []
  | _ + 1, none :: _ => []
  | n + 1, some t :: rest => t :: readTxs n rest

/-- `load_data`: `none` when the file is absent or its header fails to
    parse; otherwise balance, pin and (unclamped) `tx_count` come from
    the header, and the loop `i < tx_count && i < MAX_TX` fills the
    array with the records it manages to parse, the remaining slots
    staying uninitialized. -/
def load_data (file : Option FileData) : Option ATMData :=
  match file with
  | none => none
  | some fd =>
    match fd.header with
    | none => none
    | some (bal, pin, cnt) =>
      let parsed := readTxs (min cnt MAX_TX).toNat fd.txLines
      some { balance := bal
             pin := pin
             txs := parsed ++ List.replicate (MAX_TX.toNat - parsed.length) garbageTx
             tx_count := cnt }

/-- The ledger as observed through the array traversal
    `i < tx_count && i < MAX_TX` (the order used by `save_data` and,
    for `tx_count ≤ MAX_TX`, by `mini_statement`): oldest first. -/
def ledger (atm : ATMData) : List Transaction :=
  atm.txs.take (min atm.tx_count MAX_TX).toNat

/-- One CLI-dispatched mutating operation on the account state. -/
inductive Op where
  | dep (a : ℚ)
  | wd (a : ℚ)
  | pinChange (oldpin newpin confirm : String)

/-- The state after one operation (its result and save flag dropped). -/
def applyOp (atm : ATMData) : Op → ATMData
  | Op.dep a => (deposit atm a).2.1
  | Op.wd a => (withdraw atm a).2.1
  | Op.pinChange o n c => (change_pin atm o n c).2.1

/-- The state after a sequence of operations. -/
def runOps (atm : ATMData) (ops : List Op) : ATMData :=
  ops.foldl applyOp atm

/-! ### Basic facts about the operations -/

theorem deposit_nonpos (atm : ATMData) (a : ℚ) (h : a ≤ 0) :
    deposit atm a = (OpResult.InvalidAmount, atm, false) := by
  unfold deposit; rw [if_pos h]

theorem deposit_pos (atm : ATMData) (a : ℚ) (h : 0 < a) :
    deposit atm a =
      (OpResult.Ok,
       add_transaction { atm with balance := atm.balance + a } "Deposit" a,
       true) := by
  unfold deposit; rw [if_neg (by linarith)]

theorem withdraw_nonpos (atm : ATMData) (a : ℚ) (h : a ≤ 0) :
    withdraw atm a = (OpResult.InvalidAmount, atm, false) := by
  unfold withdraw; rw [if_pos h]

theorem withdraw_insufficient (atm : ATMData) (a : ℚ) (h0 : 0 < a)
    (h : atm.balance < a) :
    withdraw atm a = (OpResult.InsufficientFunds, atm, false) := by
  unfold withdraw; rw [if_neg (by linarith), if_pos h]

theorem withdraw_ok (atm : ATMData) (a : ℚ) (h0 : 0 < a)
    (h : a ≤ atm.balance) :
    withdraw atm a =
      (OpResult.Ok,
       add_transaction { atm with balance := atm.balance - a } "Withdraw" a,
       true) := by
  unfold withdraw; rw [if_neg (by linarith), if_neg (by linarith)]

theorem add_transaction_balance (atm : ATMData) (ty : String) (a : ℚ) :
    (add_transaction atm ty a).balance = atm.balance := by
  unfold add_transaction; split_ifs <;> rfl

theorem add_transaction_pin (atm : ATMData) (ty : String) (a : ℚ) :
    (add_transaction atm ty a).pin = atm.pin := by
  unfold add_transaction; split_ifs <;> rfl

theorem add_transaction_tx_count_le (atm : ATMData) (ty : String) (a : ℚ)
    (h : atm.tx_count ≤ MAX_TX) :
    (add_transaction atm ty a).tx_count ≤ MAX_TX := by
  unfold add_transaction
  split_ifs with h1
  · simpa using h1
  · simpa using h

/-! ### List helpers for the bounded array -/

theorem take_succ_set {α : Type} (v : α) :
    ∀ (l : List α) (k : Nat), k < l.length →
      (l.set k v).take (k + 1) = l.take k ++ [v]
  | [], k, h => by simp at h
  | x :: xs, 0, _ => by simp
  | x :: xs, k + 1, h => by
    simp only [List.set, List.take, List.cons_append]
    rw [take_succ_set v xs k (by simpa using h)]

theorem readTxs_map_some (f : Transaction → Transaction) :
    ∀ (n : Nat) (l : List Transaction),
      readTxs n (l.map (fun t => some (f t))) = (l.take n).map f
  | 0, _ => by simp [readTxs]
  | n + 1, [] => by simp [readTxs]
  | n + 1, t :: rest => by
    simp only [List.map, readTxs, List.take]
    rw [readTxs_map_some f n rest]

theorem readTxs_stops_at_failure (good : List Transaction) :
    ∀ (n : Nat) (rest : List (Option Transaction)), good.length < n →
      readTxs n (good.map some ++ none :: rest) = good := by
  induction good with
  | nil =>
    intro n rest h
    match n, h with
    | m + 1, _ => rfl
  | cons t ts ih =>
    intro n rest h
    match n, h with
    | m + 1, h =>
      simp only [List.map, List.cons_append, readTxs, List.append_eq]
      rw [ih m rest (by simpa using h)]

theorem readTxs_length_le : ∀ (n : Nat) (l : List (Option Transaction)),
    (readTxs n l).length ≤ n
  | 0, _ => by simp [readTxs]
  | n + 1, [] => by simp [readTxs]
  | n + 1, none :: _ => by simp [readTxs]
  | n + 1, some t :: rest => by
    simpa [readTxs] using readTxs_length_le n rest

/-! ### Claim theorems -/

/-- C1: from any account state with nonnegative balance, each committed
operation (`deposit`, `withdraw`, `change_pin`) leaves the balance
nonnegative; in particular a withdrawal that would drive the balance
negative is rejected (result is not `Ok`) with the state left
unchanged. -/
theorem c1_committed_ops_keep_balance_nonneg (atm : ATMData) (a : ℚ)
    (o n c : String) (h : 0 ≤ atm.balance) :
    0 ≤ (deposit atm a).2.1.balance ∧
    0 ≤ (withdraw atm a).2.1.balance ∧
    0 ≤ (change_pin atm o n c).2.1.balance ∧
    (atm.balance < a →
      (withdraw atm a).1 ≠ OpResult.Ok ∧ (withdraw atm a).2.1 = atm) := by
  refine ⟨?_, ?_, ?_, ?_⟩
  · rcases le_or_lt a 0 with h1 | h1
    · rw [deposit_nonpos atm a h1]; exact h
    · simp only [deposit_pos atm a h1, add_transaction_balance]
      show 0 ≤ atm.balance + a
      linarith
  · rcases le_or_lt a 0 with h1 | h1
    · rw [withdraw_nonpos atm a h1]; exact h
    · rcases lt_or_le atm.balance a with h2 | h2
      · rw [withdraw_insufficient atm a h1 h2]; exact h
      · simp only [withdraw_ok atm a h1 h2, add_transaction_balance]
        show 0 ≤ atm.balance - a
        linarith
  · unfold change_pin
    split_ifs <;> exact h
  · intro h2
    rcases le_or_lt a 0 with h1 | h1
    · rw [withdraw_nonpos atm a h1]
      exact ⟨by simp, rfl⟩
    · rw [withdraw_insufficient atm a h1 h2]
      exact ⟨by simp, rfl⟩

/-- C1 witness: concrete instance at the default state and amount 2000. -/
theorem c1_witness :
    0 ≤ init_default.balance ∧
    (0 ≤ (deposit init_default 2000).2.1.balance ∧
     0 ≤ (withdraw init_default 2000).2.1.balance ∧
     0 ≤ (change_pin init_default "1234" "5678" "5678").2.1.balance ∧
     (init_default.balance < 2000 →
       (withdraw init_default 2000).1 ≠ OpResult.Ok ∧
       (withdraw init_default 2000).2.1 = init_default)) :=
  ⟨by decide,
   c1_committed_ops_keep_balance_nonneg init_default 2000 "1234" "5678" "5678"
     (by decide)⟩

/-- C2: on an account state (balance nonnegative per the data model),
an amount strictly above the balance makes `withdraw` report
`InsufficientFunds` and return the state unchanged with no persistence
write (the `false` flag); hence balance and ledger are unchanged and no
record is appended. -/
theorem c2_withdraw_insufficient_funds (atm : ATMData) (a : ℚ)
    (hb : 0 ≤ atm.balance) (h : atm.balance < a) :
    withdraw atm a = (OpResult.InsufficientFunds, atm, false) ∧
    (withdraw atm a).2.1.balance = atm.balance ∧
    ledger (withdraw atm a).2.1 = ledger atm :=
  have he : withdraw atm a = (OpResult.InsufficientFunds, atm, false) :=
    withdraw_insufficient atm a (lt_of_le_of_lt hb h) h
  ⟨he, by rw [he], by rw [he]⟩

/-- C2 witness: withdrawing 2000 from the default balance of 1000. -/
theorem c2_witness :
    0 ≤ init_default.balance ∧ init_default.balance < 2000 ∧
    (withdraw init_default 2000 = (OpResult.InsufficientFunds, init_default, false) ∧
     (withdraw init_default 2000).2.1.balance = init_default.balance ∧
     ledger (withdraw init_default 2000).2.1 = ledger init_default) :=
  ⟨by decide, by decide,
   c2_withdraw_insufficient_funds init_default 2000 (by decide) (by decide)⟩

/-- C3: a nonpositive amount makes both `deposit` and `withdraw` report
`InvalidAmount` and return the state (balance and ledger) unchanged,
with no persistence write. -/
theorem c3_nonpositive_amount_rejected (atm : ATMData) (a : ℚ) (h : a ≤ 0) :
    deposit atm a = (OpResult.InvalidAmount, atm, false) ∧
    withdraw atm a = (OpResult.InvalidAmount, atm, false) :=
  ⟨deposit_nonpos atm a h, withdraw_nonpos atm a h⟩

/-- C3 witness: amount -5 at the default state. -/
theorem c3_witness :
    (-5 : ℚ) ≤ 0 ∧
    (deposit init_default (-5) = (OpResult.InvalidAmount, init_default, false) ∧
     withdraw init_default (-5) = (OpResult.InvalidAmount, init_default, false)) :=
  ⟨by decide, c3_nonpositive_amount_rejected init_default (-5) (by decide)⟩

/-- C10: `change_pin` never changes balance, `tx_count`, the stored
transaction array, or the observed ledger — on its success path and on
both failure paths alike; only the pin field may change. -/
theorem c10_change_pin_frame (atm : ATMData) (o n c : String) :
    (change_pin atm o n c).2.1.balance = atm.balance ∧
    (change_pin atm o n c).2.1.tx_count = atm.tx_count ∧
    (change_pin atm o n c).2.1.txs = atm.txs ∧
    ledger (change_pin atm o n c).2.1 = ledger atm := by
  unfold change_pin
  split_ifs <;> exact ⟨rfl, rfl, rfl, rfl⟩

/-- C8: `change_pin` reports `PinMismatch` when the old pin is wrong
(state unchanged), `PinConfirmationMismatch` when new and confirm
differ (state unchanged), and otherwise installs the new pin; after a
successful change from "1234" to "5678", `verify_pin` rejects "1234"
and accepts "5678". -/
theorem c8_change_pin_cases (atm : ATMData) (o n c : String) :
    (o ≠ atm.pin →
      change_pin atm o n c = (PinResult.PinMismatch, atm, false)) ∧
    (o = atm.pin → n ≠ c →
      change_pin atm o n c = (PinResult.PinConfirmationMismatch, atm, false)) ∧
    (o = atm.pin → n = c →
      change_pin atm o n c = (PinResult.Ok, { atm with pin := n }, true)) ∧
    (atm.pin = "1234" →
      (change_pin atm "1234" "5678" "5678").1 = PinResult.Ok ∧
      verify_pin (change_pin atm "1234" "5678" "5678").2.1 "1234" = false ∧
      verify_pin (change_pin atm "1234" "5678" "5678").2.1 "5678" = true) := by
  refine ⟨?_, ?_, ?_, ?_⟩
  · intro h1
    unfold change_pin
    rw [if_pos h1]
  · intro h1 h2
    unfold change_pin
    rw [if_neg (by simp [h1]), if_pos h2]
  · intro h1 h2
    unfold change_pin
    rw [if_neg (by simp [h1]), if_neg (by simp [h2])]
  · intro hp
    have h3 : change_pin atm "1234" "5678" "5678" =
        (PinResult.Ok, { atm with pin := "5678" }, true) := by
      unfold change_pin
      rw [if_neg (by simp [hp]), if_neg (by simp)]
    rw [h3]
    exact ⟨rfl, by simp [verify_pin], by simp [verify_pin]⟩

/-- C8 witness: the scenario at the default state (stored pin "1234"). -/
theorem c8_witness :
    init_default.pin = "1234" ∧
    ((change_pin init_default "1234" "5678" "5678").1 = PinResult.Ok ∧
     verify_pin (change_pin init_default "1234" "5678" "5678").2.1 "1234" = false ∧
     verify_pin (change_pin init_default "1234" "5678" "5678").2.1 "5678" = true) :=
  ⟨rfl, (c8_change_pin_cases init_default "1234" "5678" "5678").2.2.2 rfl⟩

/-! ### Ledger behaviour of `add_transaction` -/

theorem ledger_length (atm : ATMData) (hlen : atm.txs.length = MAX_TX.toNat)
    (h0 : 0 ≤ atm.tx_count) (h10 : atm.tx_count ≤ MAX_TX) :
    (ledger atm).length = atm.tx_count.toNat := by
  have hM : MAX_TX = 10 := rfl
  rw [hM] at hlen h10
  unfold ledger
  rw [List.length_take, hlen, hM]
  omega

theorem ledger_add_transaction (atm : ATMData) (ty : String) (a : ℚ)
    (hlen : atm.txs.length = MAX_TX.toNat)
    (h0 : 0 ≤ atm.tx_count) (h10 : atm.tx_count ≤ MAX_TX) :
    ledger (add_transaction atm ty a) =
      if atm.tx_count < MAX_TX then
        ledger atm ++ [{ type := ty, amount := a }]
      else
        (ledger atm).drop 1 ++ [{ type := ty, amount := a }] := by
  have hM : MAX_TX = 10 := rfl
  unfold add_transaction
  split_ifs with h1
  · simp only [ledger]
    rw [hM] at h1 h10 hlen ⊢
    have hmin1 : (min (atm.tx_count + 1) (10 : Int)).toNat = atm.tx_count.toNat + 1 := by
      omega
    have hmin2 : (min atm.tx_count (10 : Int)).toNat = atm.tx_count.toNat := by
      omega
    rw [hmin1, hmin2]
    exact take_succ_set _ atm.txs atm.tx_count.toNat (by omega)
  · simp only [ledger]
    have h2 : atm.tx_count = 10 := by rw [hM] at h1 h10; omega
    have hlen2 : atm.txs.length = 10 := by rw [hlen]; rfl
    rw [hM, h2]
    have hmin : (min (10 : Int) (10 : Int)).toNat = 10 := by omega
    rw [hmin]
    rw [List.take_of_length_le (by simp [hlen2]),
        List.take_of_length_le (by omega)]

/-- C4: for a valid amount, `deposit` adds exactly `a` to the balance
and `withdraw` subtracts exactly `a`; a record of the corresponding
kind is appended: below capacity the ledger grows by one, at capacity
10 the oldest record (index 0) is evicted, the other nine shift left in
order, the new record takes the last slot and the length stays 10. -/
theorem c4_valid_ops_exact_update (atm : ATMData) (a : ℚ)
    (hlen : atm.txs.length = MAX_TX.toNat)
    (h0 : 0 ≤ atm.tx_count) (h10 : atm.tx_count ≤ MAX_TX)
    (ha : 0 < a) :
    (deposit atm a).2.1.balance = atm.balance + a ∧
    (a ≤ atm.balance → (withdraw atm a).2.1.balance = atm.balance - a) ∧
    (atm.tx_count < MAX_TX →
      ledger (deposit atm a).2.1 =
        ledger atm ++ [{ type := "Deposit", amount := a }] ∧
      (ledger (deposit atm a).2.1).length = (ledger atm).length + 1 ∧
      (a ≤ atm.balance →
        ledger (withdraw atm a).2.1 =
          ledger atm ++ [{ type := "Withdraw", amount := a }])) ∧
    (atm.tx_count = MAX_TX →
      ledger (deposit atm a).2.1 =
        (ledger atm).drop 1 ++ [{ type := "Deposit", amount := a }] ∧
      (ledger (deposit atm a).2.1).length = MAX_TX.toNat ∧
      (a ≤ atm.balance →
        ledger (withdraw atm a).2.1 =
          (ledger atm).drop 1 ++ [{ type := "Withdraw", amount := a }])) := by
  have hd := deposit_pos atm a ha
  have hLd := ledger_add_transaction { atm with balance := atm.balance + a }
    "Deposit" a hlen h0 h10
  refine ⟨?_, ?_, ?_, ?_⟩
  · rw [hd]
    show (add_transaction { atm with balance := atm.balance + a } "Deposit" a).balance
      = atm.balance + a
    rw [add_transaction_balance]
  · intro hab
    rw [withdraw_ok atm a ha hab]
    show (add_transaction { atm with balance := atm.balance - a } "Withdraw" a).balance
      = atm.balance - a
    rw [add_transaction_balance]
  · intro hlt
    rw [if_pos hlt] at hLd
    have hdep : ledger (deposit atm a).2.1 =
        ledger atm ++ [{ type := "Deposit", amount := a }] := by
      rw [hd]; exact hLd
    refine ⟨hdep, by rw [hdep]; simp, ?_⟩
    intro hab
    have hLw := ledger_add_transaction { atm with balance := atm.balance - a }
      "Withdraw" a hlen h0 h10
    rw [if_pos hlt] at hLw
    rw [withdraw_ok atm a ha hab]
    exact hLw
  · intro heq
    have hnlt : ¬ atm.tx_count < MAX_TX := by rw [heq]; exact lt_irrefl _
    rw [if_neg hnlt] at hLd
    have hdep : ledger (deposit atm a).2.1 =
        (ledger atm).drop 1 ++ [{ type := "Deposit", amount := a }] := by
      rw [hd]; exact hLd
    have hLlen : (ledger atm).length = MAX_TX.toNat := by
      rw [ledger_length atm hlen h0 h10, heq]
    refine ⟨hdep, ?_, ?_⟩
    · rw [hdep]
      simp only [List.length_append, List.length_drop, hLlen]
      rfl
    · intro hab
      have hLw := ledger_add_transaction { atm with balance := atm.balance - a }
        "Withdraw" a hlen h0 h10
      rw [if_neg hnlt] at hLw
      rw [withdraw_ok atm a ha hab]
      exact hLw

/-- C4 witness: depositing 500 at the default state (ledger below
capacity). -/
theorem c4_witness :
    init_default.txs.length = MAX_TX.toNat ∧ 0 ≤ init_default.tx_count ∧
    init_default.tx_count ≤ MAX_TX ∧ (0 : ℚ) < 500 ∧
    ((deposit init_default 500).2.1.balance = init_default.balance + 500 ∧
     ((500 : ℚ) ≤ init_default.balance →
       (withdraw init_default 500).2.1.balance = init_default.balance - 500) ∧
     (init_default.tx_count < MAX_TX →
       ledger (deposit init_default 500).2.1 =
         ledger init_default ++ [{ type := "Deposit", amount := 500 }] ∧
       (ledger (deposit init_default 500).2.1).length =
         (ledger init_default).length + 1 ∧
       ((500 : ℚ) ≤ init_default.balance →
         ledger (withdraw init_default 500).2.1 =
           ledger init_default ++ [{ type := "Withdraw", amount := 500 }])) ∧
     (init_default.tx_count = MAX_TX →
       ledger (deposit init_default 500).2.1 =
         (ledger init_default).drop 1 ++ [{ type := "Deposit", amount := 500 }] ∧
       (ledger (deposit init_default 500).2.1).length = MAX_TX.toNat ∧
       ((500 : ℚ) ≤ init_default.balance →
         ledger (withdraw init_default 500).2.1 =
           (ledger init_default).drop 1 ++ [{ type := "Withdraw", amount := 500 }]))) :=
  ⟨by decide, by decide, by decide, by decide,
   c4_valid_ops_exact_update init_default 500 (by decide) (by decide)
     (by decide) (by decide)⟩

/-! ### Capacity invariant -/

theorem ledger_length_le (atm : ATMData) : (ledger atm).length ≤ MAX_TX.toNat := by
  have hM : MAX_TX = 10 := rfl
  unfold ledger
  rw [List.length_take, hM]
  omega

theorem applyOp_tx_count_le (atm : ATMData) (op : Op)
    (h : atm.tx_count ≤ MAX_TX) : (applyOp atm op).tx_count ≤ MAX_TX := by
  cases op with
  | dep a =>
    rcases le_or_lt a 0 with h1 | h1
    · simp only [applyOp, deposit_nonpos atm a h1]; exact h
    · simp only [applyOp, deposit_pos atm a h1]
      exact add_transaction_tx_count_le _ _ _ h
  | wd a =>
    rcases le_or_lt a 0 with h1 | h1
    · simp only [applyOp, withdraw_nonpos atm a h1]; exact h
    · rcases lt_or_le atm.balance a with h2 | h2
      · simp only [applyOp, withdraw_insufficient atm a h1 h2]; exact h
      · simp only [applyOp, withdraw_ok atm a h1 h2]
        exact add_transaction_tx_count_le _ _ _ h
  | pinChange o n c =>
    simp only [applyOp]
    unfold change_pin
    split_ifs <;> exact h

theorem runOps_tx_count_le (ops : List Op) :
    ∀ atm : ATMData, atm.tx_count ≤ MAX_TX →
      (runOps atm ops).tx_count ≤ MAX_TX := by
  induction ops with
  | nil => intro atm h; exact h
  | cons op rest ih =>
    intro atm h
    exact ih (applyOp atm op) (applyOp_tx_count_le atm op h)

theorem load_save_header (s : ATMData) :
    ∃ s0, load_data (some (save_data s)) = some s0 ∧
      s0.balance = round2 s.balance ∧ s0.pin = s.pin ∧
      s0.tx_count = s.tx_count :=
  ⟨_, rfl, rfl, rfl, rfl⟩

/-- C5: starting from the default state, or from a load of the file
the program itself persisted from a state within capacity, no sequence
of operations ever pushes `tx_count` (or the observed ledger length)
past the capacity 10. -/
theorem c5_tx_count_bounded (ops : List Op) (s0 : ATMData)
    (h : s0 = init_default ∨
      ∃ s, s.tx_count ≤ MAX_TX ∧ load_data (some (save_data s)) = some s0) :
    (runOps s0 ops).tx_count ≤ MAX_TX ∧
    (ledger (runOps s0 ops)).length ≤ MAX_TX.toNat := by
  have h0 : s0.tx_count ≤ MAX_TX := by
    rcases h with h | ⟨s, hs, hload⟩
    · rw [h]; decide
    · obtain ⟨s1, h1, _, _, h4⟩ := load_save_header s
      rw [hload] at h1
      injection h1 with h1
      rw [h1, h4]; exact hs
  exact ⟨runOps_tx_count_le ops s0 h0, ledger_length_le _⟩

/-- C5 witness: eleven deposits of 1 from the default state. -/
theorem c5_witness :
    (init_default = init_default ∨
      ∃ s, s.tx_count ≤ MAX_TX ∧
        load_data (some (save_data s)) = some init_default) ∧
    ((runOps init_default (List.replicate 11 (Op.dep 1))).tx_count ≤ MAX_TX ∧
     (ledger (runOps init_default (List.replicate 11 (Op.dep 1)))).length ≤
       MAX_TX.toNat) :=
  ⟨Or.inl rfl,
   c5_tx_count_bounded (List.replicate 11 (Op.dep 1)) init_default (Or.inl rfl)⟩

/-! ### Round trip of the persistence codec -/

theorem load_data_some (b : ℚ) (p : String) (c : Int)
    (L : List (Option Transaction)) :
    load_data (some { header := some (b, p, c), txLines := L }) =
      some { balance := b
             pin := p
             txs := readTxs (min c MAX_TX).toNat L ++
               List.replicate
                 (MAX_TX.toNat - (readTxs (min c MAX_TX).toNat L).length)
                 garbageTx
             tx_count := c } := rfl

theorem load_save_eq (atm : ATMData) :
    load_data (some (save_data atm)) =
      some { balance := round2 atm.balance
             pin := atm.pin
             txs := (ledger atm).map round2Tx ++
               List.replicate
                 (MAX_TX.toNat - ((ledger atm).map round2Tx).length)
                 garbageTx
             tx_count := atm.tx_count } := by
  have hparsed : readTxs (min atm.tx_count MAX_TX).toNat
      ((ledger atm).map (fun t => some (round2Tx t))) =
      (ledger atm).map round2Tx := by
    rw [readTxs_map_some round2Tx, List.take_of_length_le]
    have hM : MAX_TX = 10 := rfl
    simp only [ledger, List.length_take, hM]
    omega
  rw [show save_data atm =
        { header := some (round2 atm.balance, atm.pin, atm.tx_count)
          txLines := (ledger atm).map (fun t => some (round2Tx t)) } from rfl,
      load_data_some, hparsed]

/-- C6: saving an in-capacity account state and loading the written
file back reproduces an equivalent state: balance rounded to 2 decimal
places, identical pin, identical `tx_count`, and (amounts being
2-decimal stable, as every stored amount is after `%.2f` encoding)
identical ledger contents in the same order. -/
theorem c6_save_load_roundtrip (atm : ATMData)
    (hlen : atm.txs.length = MAX_TX.toNat)
    (h0 : 0 ≤ atm.tx_count) (h10 : atm.tx_count ≤ MAX_TX)
    (hstable : ∀ t ∈ ledger atm, round2 t.amount = t.amount) :
    ∃ atm2, load_data (some (save_data atm)) = some atm2 ∧
      atm2.balance = round2 atm.balance ∧
      atm2.pin = atm.pin ∧
      atm2.tx_count = atm.tx_count ∧
      ledger atm2 = ledger atm := by
  have hmap : (ledger atm).map round2Tx = ledger atm := by
    have hid : ∀ t ∈ ledger atm, round2Tx t = t := by
      intro t ht
      have h5 := hstable t ht
      unfold round2Tx
      cases t with
      | mk ty amt =>
        simp only at h5 ⊢
        rw [h5]
    rw [List.map_eq_map_iff.mpr hid, List.map_id' (ledger atm)]
  refine ⟨_, load_save_eq atm, rfl, rfl, rfl, ?_⟩
  rw [show ledger
        { balance := round2 atm.balance
          pin := atm.pin
          txs := (ledger atm).map round2Tx ++
            List.replicate
              (MAX_TX.toNat - ((ledger atm).map round2Tx).length) garbageTx
          tx_count := atm.tx_count } =
      ((ledger atm).map round2Tx ++
        List.replicate
          (MAX_TX.toNat - ((ledger atm).map round2Tx).length) garbageTx).take
        (min atm.tx_count MAX_TX).toNat from rfl,
    hmap]
  refine List.take_left' ?_
  have hM : MAX_TX = 10 := rfl
  rw [hM] at hlen h10 ⊢
  simp only [ledger, List.length_take, hlen]
  omega

theorem round2_intCast (n : Int) : round2 ((n : ℚ)) = (n : ℚ) := by
  unfold round2
  rw [show ((n : ℚ) * 100) = ((n * 100 : Int) : ℚ) by push_cast; ring,
    round_intCast]
  push_cast
  field_simp

/-- Concrete round-trip state: balance 1500, two stored records. -/
def atmRT : ATMData :=
  { balance := 1500
    pin := "1234"
    txs := Transaction.mk "Deposit" 500 :: Transaction.mk "Withdraw" 300 ::
      List.replicate 8 garbageTx
    tx_count := 2 }

/-- C6 witness: save-then-load of `atmRT` reproduces it. -/
theorem c6_witness :
    atmRT.txs.length = MAX_TX.toNat ∧ 0 ≤ atmRT.tx_count ∧
    atmRT.tx_count ≤ MAX_TX ∧
    (∀ t ∈ ledger atmRT, round2 t.amount = t.amount) ∧
    (∃ atm2, load_data (some (save_data atmRT)) = some atm2 ∧
      atm2.balance = round2 atmRT.balance ∧
      atm2.pin = atmRT.pin ∧
      atm2.tx_count = atmRT.tx_count ∧
      ledger atm2 = ledger atmRT) := by
  have h500 : round2 (500 : ℚ) = (500 : ℚ) := by
    exact_mod_cast round2_intCast 500
  have h300 : round2 (300 : ℚ) = (300 : ℚ) := by
    exact_mod_cast round2_intCast 300
  have hstable : ∀ t ∈ ledger atmRT, round2 t.amount = t.amount := by
    have hl : ledger atmRT =
        [Transaction.mk "Deposit" 500, Transaction.mk "Withdraw" 300] := by
      decide
    rw [hl]
    intro t ht
    rcases List.mem_cons.mp ht with h | h
    · subst h; simpa using h500
    · rcases List.mem_cons.mp h with h | h
      · subst h; simpa using h300
      · exact absurd h (List.not_mem_nil t)
  exact ⟨by decide, by decide, by decide, hstable,
    c6_save_load_roundtrip atmRT (by decide) (by decide) (by decide) hstable⟩

/-- C7: when the header parses but some transaction entry fails to
parse before the expected count is reached, the load still succeeds,
the records before the failure are exactly what lands in the array
(the remaining slots untouched), and the header fields are taken as
read — the ledger is left short rather than the load failing. -/
theorem c7_malformed_line_stops_read (fd : FileData) (b : ℚ) (p : String)
    (c : Int) (good : List Transaction) (rest : List (Option Transaction))
    (hh : fd.header = some (b, p, c))
    (hl : fd.txLines = good.map some ++ none :: rest)
    (hshort : (good.length : Int) < min c MAX_TX) :
    ∃ atm2, load_data (some fd) = some atm2 ∧
      readTxs (min c MAX_TX).toNat fd.txLines = good ∧
      atm2.txs = good ++
        List.replicate (MAX_TX.toNat - good.length) garbageTx ∧
      atm2.balance = b ∧ atm2.pin = p ∧ atm2.tx_count = c := by
  have hM : MAX_TX = 10 := rfl
  have hn : good.length < (min c MAX_TX).toNat := by rw [hM] at hshort ⊢; omega
  have hread2 : readTxs (min c MAX_TX).toNat
      (good.map some ++ none :: rest) = good :=
    readTxs_stops_at_failure good _ rest hn
  have hfd : fd = { header := some (b, p, c)
                    txLines := good.map some ++ none :: rest } := by
    cases fd with
    | mk hdr lines =>
      rw [show (FileData.mk hdr lines).header = hdr from rfl] at hh
      rw [show (FileData.mk hdr lines).txLines = lines from rfl] at hl
      rw [hh, hl]
  rw [hfd, load_data_some]
  refine ⟨_, rfl, hread2, ?_, rfl, rfl, rfl⟩
  show readTxs (min c MAX_TX).toNat (good.map some ++ none :: rest) ++
      List.replicate
        (MAX_TX.toNat -
          (readTxs (min c MAX_TX).toNat
            (good.map some ++ none :: rest)).length)
        garbageTx =
    good ++ List.replicate (MAX_TX.toNat - good.length) garbageTx
  rw [hread2]

/-- File with header count 5 whose second transaction entry is
malformed. -/
def fdBad : FileData :=
  { header := some (100, "1234", 5)
    txLines := [some (Transaction.mk "Deposit" 10), none,
                some (Transaction.mk "Withdraw" 3)] }

/-- C7 witness: loading `fdBad` succeeds with only the one record that
parsed before the malformed entry. -/
theorem c7_witness :
    fdBad.header = some (100, "1234", 5) ∧
    fdBad.txLines = [Transaction.mk "Deposit" 10].map some ++
      none :: [some (Transaction.mk "Withdraw" 3)] ∧
    (([Transaction.mk "Deposit" 10].length : Int) < min 5 MAX_TX) ∧
    (∃ atm2, load_data (some fdBad) = some atm2 ∧
      readTxs (min 5 MAX_TX).toNat fdBad.txLines =
        [Transaction.mk "Deposit" 10] ∧
      atm2.txs = [Transaction.mk "Deposit" 10] ++
        List.replicate
          (MAX_TX.toNat - [Transaction.mk "Deposit" 10].length) garbageTx ∧
      atm2.balance = 100 ∧ atm2.pin = "1234" ∧ atm2.tx_count = 5) :=
  ⟨rfl, rfl, by decide,
   c7_malformed_line_stops_read fdBad 100 "1234" 5
     [Transaction.mk "Deposit" 10] [some (Transaction.mk "Withdraw" 3)]
     rfl rfl (by decide)⟩

/-- C9: a parsed header stores its count into `tx_count` unclamped
while at most `min(count, 10)` entries are read, so a count above 10
yields an in-memory `tx_count` above the capacity and strictly larger
than the number of records actually read. -/
theorem c9_load_does_not_clamp_count (fd : FileData) (b : ℚ) (p : String)
    (c : Int) (hh : fd.header = some (b, p, c)) (hc : MAX_TX < c) :
    ∃ atm2, load_data (some fd) = some atm2 ∧
      atm2.tx_count = c ∧
      MAX_TX < atm2.tx_count ∧
      (readTxs (min c MAX_TX).toNat fd.txLines).length ≤
        (min c MAX_TX).toNat ∧
      (readTxs (min c MAX_TX).toNat fd.txLines).length ≤ MAX_TX.toNat ∧
      ((readTxs (min c MAX_TX).toNat fd.txLines).length : Int) <
        atm2.tx_count := by
  have hM : MAX_TX = 10 := rfl
  obtain ⟨hdr, lines⟩ := fd
  rw [show (FileData.mk hdr lines).header = hdr from rfl] at hh
  subst hh
  rw [load_data_some]
  have hle := readTxs_length_le (min c MAX_TX).toNat
    ((FileData.mk (some (b, p, c)) lines).txLines)
  have hle10 : (readTxs (min c MAX_TX).toNat
      ((FileData.mk (some (b, p, c)) lines).txLines)).length ≤
      MAX_TX.toNat := by
    refine le_trans hle ?_
    rw [hM]
    omega
  refine ⟨_, rfl, rfl, hc, hle, hle10, ?_⟩
  show ((readTxs (min c MAX_TX).toNat
      ((FileData.mk (some (b, p, c)) lines).txLines)).length : Int) < c
  rw [hM] at hc hle10
  omega

/-- File whose header announces 15 transactions. -/
def fdOver : FileData :=
  { header := some (100, "1234", 15)
    txLines := List.replicate 12 (some (Transaction.mk "Deposit" 1)) }

/-- C9 witness: loading `fdOver` stores `tx_count = 15 > 10` while
reading at most 10 records. -/
theorem c9_witness :
    fdOver.header = some (100, "1234", 15) ∧ MAX_TX < (15 : Int) ∧
    (∃ atm2, load_data (some fdOver) = some atm2 ∧
      atm2.tx_count = 15 ∧
      MAX_TX < atm2.tx_count ∧
      (readTxs (min 15 MAX_TX).toNat fdOver.txLines).length ≤
        (min 15 MAX_TX).toNat ∧
      (readTxs (min 15 MAX_TX).toNat fdOver.txLines).length ≤ MAX_TX.toNat ∧
      ((readTxs (min 15 MAX_TX).toNat fdOver.txLines).length : Int) <
        atm2.tx_count) :=
  ⟨rfl, by decide,
   c9_load_does_not_clamp_count fdOver 100 "1234" 15 rfl (by decide)⟩
